import Mathlib

/-!
Verification of the custom-auth core of the blog-api-strapi repository.

We give a shallow embedding of the authentication data model and operations:
the token service (src/src/api/custom-auth — mint / validate / rotate / revoke
of refresh tokens), the email OTP provider, the Google provider adapter, and
the identity-resolution helper findOrCreateUser of the auth controller.

Modelling conventions:
  - database tables are lists of rows; a Strapi findOne over a where-clause is
    List.find? over the corresponding decidable predicate, update / updateMany
    over a where-clause is List.map applying the data patch to matching rows;
  - timestamps are naturals (milliseconds since epoch, as JavaScript Date);
  - the SHA-256 hex digest (an external crypto library routine) is an
    uninterpreted parameter sha : String → String threaded through the
    definitions; theorems that need collision-freeness assume injectivity;
  - the uuid library's v4 generator is modelled from RFC 4122 as its
    byte-level masking of 16 random bytes followed by hex formatting.
-/

set_option maxRecDepth 16384

namespace BlogAuth

/-- Row of the refresh_tokens table (database schema doc, src model). -/
structure RefreshRow where
  id : Nat
  token_hash : String
  user : Nat
  device_type : Option String := none
  device_info : Option String := none
  ip_address : Option String := none
  expires_at : Nat
  last_used_at : Nat
  revoked : Bool
  revoked_at : Option Nat := none
  revoked_reason : Option String := none
deriving DecidableEq, Repr

/-- Row of the otp_codes table. -/
structure OtpRow where
  id : Nat
  email : String
  code_hash : String
  expires_at : Nat
  attempt_count : Nat
  used : Bool
  used_at : Option Nat := none
  createdAt : Nat
deriving DecidableEq, Repr

/-- Row of the users table (the fields the custom-auth core touches). -/
structure UserRow where
  id : Nat
  email : String
  username : String
  auth_provider : String
  provider_id : String
  display_name : Option String := none
  avatar_url : Option String := none
  confirmed : Bool := true
  blocked : Bool := false
  role : Option Nat := none
deriving DecidableEq, Repr

/-- Context passed when minting a refresh token (RefreshTokenOptions). -/
structure RefreshTokenOptions where
  deviceType : Option String := none
  deviceInfo : Option String := none
  ipAddress : Option String := none
deriving DecidableEq, Repr

namespace uuid

/-- RFC 4122 masking of byte 6 of a v4 UUID: high nibble forced to 4. -/
def mask6 (b : Fin 256) : Fin 256 :=
  ⟨(b.val &&& 15) ||| 64, by
    have h1 : b.val &&& 15 < 256 :=
      Nat.lt_of_le_of_lt (Nat.and_le_right) (by norm_num)
    exact Nat.or_lt_two_pow (n := 8) h1 (by norm_num)⟩

/-- RFC 4122 masking of byte 8 of a v4 UUID: top two bits forced to 10. -/
def mask8 (b : Fin 256) : Fin 256 :=
  ⟨(b.val &&& 63) ||| 128, by
    have h1 : b.val &&& 63 < 256 :=
      Nat.lt_of_le_of_lt (Nat.and_le_right) (by norm_num)
    exact Nat.or_lt_two_pow (n := 8) h1 (by norm_num)⟩

/-- Byte-level core of uuidv4(): 16 random bytes with the version nibble and
variant bits overwritten per RFC 4122. -/
def uuidv4Bytes (b : Fin 16 → Fin 256) : Fin 16 → Fin 256 :=
  fun i => if i = 6 then mask6 (b 6) else if i = 8 then mask8 (b 8) else b i

/-- Lower-case hex digit of a value below 16. -/
def hexDigit (n : Nat) : Char :=
  if n < 10 then Char.ofNat (48 + n) else Char.ofNat (87 + n)

/-- Two-character lower-case hex rendering of one byte. -/
def hexByte (b : Fin 256) : List Char :=
  [hexDigit (b.val / 16), hexDigit (b.val % 16)]

/-- The uuid library's stringify: hex bytes with dashes after bytes 3,5,7,9. -/
def uuidStringify (b : Fin 16 → Fin 256) : String :=
  String.mk ((List.finRange 16).flatMap fun i =>
    hexByte (b i) ++
      (if i.val = 3 ∨ i.val = 5 ∨ i.val = 7 ∨ i.val = 9 then ['-'] else []))

/-- The uuidv4() call of the token service, as a function of the 16 random
bytes drawn from the CSPRNG. -/
def uuidv4 (randomBytes : Fin 16 → Fin 256) : String :=
  uuidStringify (uuidv4Bytes randomBytes)

end uuid

namespace tokenService

/-- Expiry in days: parseInt(process.env.JWT_REFRESH_TOKEN_EXPIRES_DAYS or
the string 7, base 10); none models an unset environment variable, some a
well-formed numeric setting. -/
def expiryDays (envDays : Option Nat) : Nat := envDays.getD 7

/-- generateRefreshToken: mint uuidv4, hash it, persist a row carrying the
hash, the context, last_used_at = now, expires_at = now + expiryDays in
milliseconds, revoked = false; return the plaintext. -/
def generateRefreshToken (sha : String → String) (randomBytes : Fin 16 → Fin 256)
    (envDays : Option Nat) (now : Nat) (newId : Nat) (userId : Nat)
    (options : RefreshTokenOptions) (store : List RefreshRow) :
    String × List RefreshRow :=
  let rawToken := uuid.uuidv4 randomBytes
  let tokenHash := sha rawToken
  let expiresAt := now + expiryDays envDays * 86400000
  (rawToken,
   store ++ [{ id := newId, token_hash := tokenHash, user := userId,
               device_type := options.deviceType, device_info := options.deviceInfo,
               ip_address := options.ipAddress, expires_at := expiresAt,
               last_used_at := now, revoked := false }])

/-- validateRefreshToken: look the hash up, return null when the row is
absent, revoked, or strictly past expires_at, otherwise the record. The
second component is the store after the call (the operation performs no
writes). -/
def validateRefreshToken (sha : String → String) (rawToken : String) (now : Nat)
    (store : List RefreshRow) : Option RefreshRow × List RefreshRow :=
  let tokenHash := sha rawToken
  match store.find? (fun r => r.token_hash == tokenHash) with
  | none => (none, store)
  | some record =>
    if record.revoked then (none, store)
    else if now > record.expires_at then (none, store)
    else (some record, store)

/-- revokeRefreshToken: updateMany on the matching hash, setting revoked,
revoked_at, revoked_reason. -/
def revokeRefreshToken (sha : String → String) (rawToken : String) (reason : String)
    (now : Nat) (store : List RefreshRow) : List RefreshRow :=
  let tokenHash := sha rawToken
  store.map fun r =>
    if r.token_hash == tokenHash then
      { r with revoked := true, revoked_at := some now, revoked_reason := some reason }
    else r

/-- revokeAllUserRefreshTokens: updateMany over the rows of the user that are
not yet revoked, with reason logout. -/
def revokeAllUserRefreshTokens (userId : Nat) (now : Nat)
    (store : List RefreshRow) : List RefreshRow :=
  store.map fun r =>
    if r.user == userId && !r.revoked then
      { r with revoked := true, revoked_at := some now, revoked_reason := some "logout" }
    else r

/-- rotateRefreshToken: revoke the old plaintext with reason rotated, then
mint a replacement. -/
def rotateRefreshToken (sha : String → String) (oldRawToken : String)
    (randomBytes : Fin 16 → Fin 256) (envDays : Option Nat) (now : Nat)
    (newId : Nat) (userId : Nat) (options : RefreshTokenOptions)
    (store : List RefreshRow) : String × List RefreshRow :=
  let store1 := revokeRefreshToken sha oldRawToken "rotated" now store
  generateRefreshToken sha randomBytes envDays now newId userId options store1

/-- The refresh handler's non-rotating branch: validate, then update
last_used_at of the found record (auth.ts lines 199-205). -/
def refreshLastUsedUpdate (sha : String → String) (rawToken : String) (now : Nat)
    (store : List RefreshRow) : Option RefreshRow × List RefreshRow :=
  match (validateRefreshToken sha rawToken now store).1 with
  | none => (none, store)
  | some record =>
    (some record,
     store.map fun r => if r.id == record.id then { r with last_used_at := now } else r)

end tokenService

/-- Normalized provider output of the email adapter. -/
structure ProviderUserInfo where
  providerId : String
  email : String
  emailVerified : Bool
deriving DecidableEq, Repr

/-- Failure modes of emailProvider.validate, one constructor per distinct
thrown message. The two throw sites sharing the identical too-many-attempts
message (the attempt-limit gate, and a mismatch that exhausts the budget) map
to the same constructor. -/
inductive OtpError where
  | noActiveOtp
  | expired
  | tooManyAttempts
  | invalidCode (attemptsRemaining : Nat)
deriving DecidableEq, Repr

namespace emailProvider

/-- Rows eligible for the findOne where-clause: matching email, used = false. -/
def otpCandidates (email : String) (store : List OtpRow) : List OtpRow :=
  store.filter fun r => r.email == email && !r.used

/-- First row of maximal createdAt, as findOne with orderBy createdAt desc
(stable descending sort followed by taking the head). -/
def pickLatest : List OtpRow → Option OtpRow
  | [] => none
  | r :: rs =>
    match pickLatest rs with
    | none => some r
    | some m => if m.createdAt > r.createdAt then some m else some r

/-- The otpRecord fetched by validate: latest unused row for the email. -/
def findLatestUnused (email : String) (store : List OtpRow) : Option OtpRow :=
  pickLatest (otpCandidates email store)

/-- Strapi update with a where-clause on id: patch every row carrying it. -/
def updateOtpRow (id : Nat) (patch : OtpRow → OtpRow) (store : List OtpRow) :
    List OtpRow :=
  store.map fun r => if r.id == id then patch r else r

/-- emailProvider.validate: fetch the latest unused row, gate on expiry then
on the attempt limit, then compare the hash of the submitted code; on
mismatch persist the incremented attempt_count before failing, on match mark
the row used. Returns the outcome together with the store after the call. -/
def validate (sha : String → String) (email otp : String) (now : Nat)
    (store : List OtpRow) : Except OtpError ProviderUserInfo × List OtpRow :=
  let codeHash := sha otp
  match findLatestUnused email store with
  | none => (Except.error OtpError.noActiveOtp, store)
  | some otpRecord =>
    if now > otpRecord.expires_at then
      (Except.error OtpError.expired, store)
    else if otpRecord.attempt_count ≥ 3 then
      (Except.error OtpError.tooManyAttempts, store)
    else if otpRecord.code_hash ≠ codeHash then
      let store1 := updateOtpRow otpRecord.id
        (fun r => { r with attempt_count := otpRecord.attempt_count + 1 }) store
      let attemptsRemaining := 3 - (otpRecord.attempt_count + 1)
      (Except.error
        (if attemptsRemaining > 0 then OtpError.invalidCode attemptsRemaining
         else OtpError.tooManyAttempts), store1)
    else
      (Except.ok { providerId := email, email := email, emailVerified := true },
       updateOtpRow otpRecord.id
         (fun r => { r with used := true, used_at := some now }) store)

end emailProvider

/-- Claims of a Google identity token as returned by the tokeninfo endpoint
(exp in seconds; email_verified folded to Bool, the adapter accepts both the
boolean true and the string true). -/
structure GoogleClaims where
  aud : String
  iss : String
  exp : Nat
  sub : String
  email : String
  name : Option String := none
  picture : Option String := none
  email_verified : Bool := false
deriving DecidableEq, Repr

/-- Normalized provider output of the Google adapter. -/
structure GoogleUserInfo where
  providerId : String
  email : String
  name : Option String := none
  picture : Option String := none
  emailVerified : Bool
deriving DecidableEq, Repr

/-- Failure modes of googleProvider.validate after a successful tokeninfo
fetch, one constructor per thrown message. -/
inductive GoogleError where
  | audienceMismatch
  | invalidIssuer
  | expired
deriving DecidableEq, Repr

namespace googleProvider

/-- googleProvider.validate, from the point where the tokeninfo endpoint has
answered with the claims. clientId is process.env.GOOGLE_CLIENT_ID, the empty
string modelling an unset (falsy) variable. The expiry comparison
Date.now() / 1000 > Number(claims.exp) is exact real division, rendered
integrally as nowMs > exp * 1000. -/
def validate (claims : GoogleClaims) (clientId : String) (nowMs : Nat) :
    Except GoogleError GoogleUserInfo :=
  if clientId ≠ "" ∧ claims.aud ≠ clientId then
    Except.error GoogleError.audienceMismatch
  else if ¬ (claims.iss = "accounts.google.com" ∨
             claims.iss = "https://accounts.google.com") then
    Except.error GoogleError.invalidIssuer
  else if nowMs > claims.exp * 1000 then
    Except.error GoogleError.expired
  else
    Except.ok { providerId := claims.sub, email := claims.email,
                name := claims.name, picture := claims.picture,
                emailVerified := claims.email_verified }

end googleProvider

/-- Options handed to findOrCreateUser by the auth controller. confirmed is
optional there (the create falls back to true). -/
structure FindOrCreateUserOptions where
  email : String
  authProvider : String
  providerId : String
  displayName : Option String := none
  avatarUrl : Option String := none
  confirmed : Option Bool := none
deriving DecidableEq, Repr

namespace identityResolver

/-- Local part of the email with every character outside alphanumerics and
underscore replaced by an underscore. -/
def usernameBase (email : String) : String :=
  String.map (fun c => if c.isAlphanum || c = '_' then c else '_')
    ((email.splitOn "@").headD "")

/-- Candidate tried at a given attempt number: the base, then base_1, ... -/
def usernameCandidate (base : String) (attempt : Nat) : String :=
  if attempt = 0 then base else base ++ "_" ++ toString attempt

/-- Fueled rendering of the source's unbounded retry loop; the loop only ever
needs |store| + 1 iterations because each iteration either stops at a free
candidate or witnesses a distinct stored username. -/
def generateUniqueUsernameAux (store : List UserRow) (base : String) :
    Nat → Nat → String
  | 0, attempt => usernameCandidate base attempt
  | fuel + 1, attempt =>
    let candidate := usernameCandidate base attempt
    if store.any (fun u => u.username == candidate) then
      generateUniqueUsernameAux store base fuel (attempt + 1)
    else candidate

/-- generateUniqueUsername of the auth controller. -/
def generateUniqueUsername (store : List UserRow) (email : String) : String :=
  generateUniqueUsernameAux store (usernameBase email) (store.length + 1) 0

/-- Patch applied to a found user on a subsequent login: provider fields
always advance, display_name is backfilled only when currently absent,
avatar_url is refreshed whenever supplied. -/
def applyProviderUpdate (options : FindOrCreateUserOptions) (u : UserRow) :
    UserRow :=
  { u with
    auth_provider := options.authProvider,
    provider_id := options.providerId,
    display_name :=
      match options.displayName, u.display_name with
      | some d, none => some d
      | _, _ => u.display_name,
    avatar_url :=
      match options.avatarUrl with
      | some a => some a
      | none => u.avatar_url }

/-- findOrCreateUser: look up by (auth_provider, provider_id), fall back to a
lookup by email, and only when both miss create a new user with a fresh
unique username and the default authenticated role; a found user is updated
in place. Returns the resolved user and the store after the call. -/
def findOrCreateUser (options : FindOrCreateUserOptions) (newId : Nat)
    (authRoleId : Option Nat) (store : List UserRow) : UserRow × List UserRow :=
  let byProvider := store.find? fun u =>
    u.auth_provider == options.authProvider && u.provider_id == options.providerId
  let found :=
    match byProvider with
    | some u => some u
    | none => store.find? fun u => u.email == options.email
  match found with
  | none =>
    let newUser : UserRow :=
      { id := newId, email := options.email,
        username := generateUniqueUsername store options.email,
        auth_provider := options.authProvider,
        provider_id := options.providerId,
        display_name := options.displayName,
        avatar_url := options.avatarUrl,
        confirmed := options.confirmed.getD true,
        blocked := false,
        role := authRoleId }
    (newUser, store ++ [newUser])
  | some u =>
    let u2 := applyProviderUpdate options u
    (u2, store.map fun x => if x.id == u.id then u2 else x)

end identityResolver

/-! Helper lemmas shared by the claim theorems. -/

theorem forall2_map_self {α β : Type} (f : α → β) (P : α → β → Prop)
    (l : List α) (h : ∀ a ∈ l, P a (f a)) : List.Forall₂ P l (l.map f) := by
  induction l with
  | nil => exact List.Forall₂.nil
  | cons x xs ih =>
    exact List.Forall₂.cons (h x (by simp)) (ih fun a ha => h a (by simp [ha]))

/-! Concrete material used by witnesses and counterexamples. -/

/-- Stand-in for the external SHA-256 hex digest in concrete evaluations. -/
def shaT (s : String) : String := "sha:" ++ s

def rowRT : RefreshRow :=
  { id := 1, token_hash := shaT "tok1", user := 5, expires_at := 1000,
    last_used_at := 0, revoked := false }

def rowRT2 : RefreshRow :=
  { id := 2, token_hash := shaT "tok2", user := 6, expires_at := 1000,
    last_used_at := 0, revoked := false }

/-- C3: validateRefreshToken returns the very same value none whether the row
with the matching hash is absent, revoked, or strictly past expires_at, and
returns the found record when it is present, unrevoked and unexpired. -/
theorem C3_validateRefreshToken_uniform_null (sha : String → String)
    (raw : String) (now : Nat) (store : List RefreshRow) :
    (store.find? (fun r => r.token_hash == sha raw) = none →
      (tokenService.validateRefreshToken sha raw now store).1 = none) ∧
    (∀ r, store.find? (fun r => r.token_hash == sha raw) = some r →
      r.revoked = true →
      (tokenService.validateRefreshToken sha raw now store).1 = none) ∧
    (∀ r, store.find? (fun r => r.token_hash == sha raw) = some r →
      now > r.expires_at →
      (tokenService.validateRefreshToken sha raw now store).1 = none) ∧
    (∀ r, store.find? (fun r => r.token_hash == sha raw) = some r →
      r.revoked = false → now ≤ r.expires_at →
      (tokenService.validateRefreshToken sha raw now store).1 = some r) := by
  unfold tokenService.validateRefreshToken
  refine ⟨fun h => by simp [h], fun r h hrev => by simp [h, hrev],
          fun r h hexp => ?_,
          fun r h hrev hle => by simp [h, hrev, Nat.not_lt.mpr hle]⟩
  by_cases hrev : r.revoked <;> simp [h, hrev, hexp]

theorem C3_witness :
    (tokenService.validateRefreshToken shaT "tok1" 500 [rowRT]).1 = some rowRT ∧
    (tokenService.validateRefreshToken shaT "missing" 500 [rowRT]).1 = none :=
  ⟨(C3_validateRefreshToken_uniform_null shaT "tok1" 500 [rowRT]).2.2.2 rowRT
      (by decide) (by decide) (by decide),
   (C3_validateRefreshToken_uniform_null shaT "missing" 500 [rowRT]).1 (by decide)⟩

/-- C10: validateRefreshToken never writes: the store after the call is the
store before it. The last_used_at refresh is performed by the refresh
handler, which rewrites exactly the rows carrying the validated record's id
and leaves every other row untouched. -/
theorem C10_validateRefreshToken_readOnly (sha : String → String) (raw : String)
    (now : Nat) (store : List RefreshRow) :
    (tokenService.validateRefreshToken sha raw now store).2 = store ∧
    (∀ record, (tokenService.validateRefreshToken sha raw now store).1 = some record →
      (tokenService.refreshLastUsedUpdate sha raw now store).1 = some record ∧
      (tokenService.refreshLastUsedUpdate sha raw now store).2 =
        store.map (fun r => if r.id == record.id then { r with last_used_at := now } else r) ∧
      (∀ r ∈ store, r.id ≠ record.id →
        r ∈ (tokenService.refreshLastUsedUpdate sha raw now store).2) ∧
      (∀ r ∈ store, r.id = record.id →
        { r with last_used_at := now } ∈
          (tokenService.refreshLastUsedUpdate sha raw now store).2)) := by
  constructor
  · unfold tokenService.validateRefreshToken
    cases h : store.find? (fun r => r.token_hash == sha raw) <;> simp [h]
    split_ifs <;> rfl
  · intro record hv
    have hmap : (tokenService.refreshLastUsedUpdate sha raw now store).2 =
        store.map (fun r => if r.id == record.id then { r with last_used_at := now } else r) := by
      simp [tokenService.refreshLastUsedUpdate, hv]
    refine ⟨by simp [tokenService.refreshLastUsedUpdate, hv], hmap, ?_, ?_⟩
    · intro r hr hne
      rw [hmap]
      exact List.mem_map.mpr ⟨r, hr, by simp [hne]⟩
    · intro r hr heq
      rw [hmap]
      exact List.mem_map.mpr ⟨r, hr, by simp [heq]⟩

theorem C10_witness :
    (tokenService.validateRefreshToken shaT "tok1" 500 [rowRT]).2 = [rowRT] ∧
    (tokenService.refreshLastUsedUpdate shaT "tok1" 500 [rowRT]).2 =
      [{ rowRT with last_used_at := 500 }] := by
  have h := C10_validateRefreshToken_readOnly shaT "tok1" 500 [rowRT]
  refine ⟨h.1, ?_⟩
  have h2 := (h.2 rowRT (by decide)).2.1
  rw [h2]; decide

/-- C5: revokeAllUserRefreshTokens rewrites exactly the not-yet-revoked rows
of the given user, marking them revoked with reason logout, and leaves every
row of any other user, and every already-revoked row, unchanged. -/
theorem C5_revokeAllUserRefreshTokens_frame (uid now : Nat)
    (store : List RefreshRow) :
    List.Forall₂ (fun old new =>
      (old.user = uid → old.revoked = false →
        new = { old with revoked := true, revoked_at := some now,
                         revoked_reason := some "logout" }) ∧
      (old.user ≠ uid → new = old) ∧
      (old.revoked = true → new = old))
      store (tokenService.revokeAllUserRefreshTokens uid now store) := by
  unfold tokenService.revokeAllUserRefreshTokens
  apply forall2_map_self
  intro a _
  refine ⟨fun hu hr => by simp [hu, hr], fun hu => by simp [hu], fun hr => by simp [hr]⟩

theorem C5_witness :
    List.Forall₂ (fun old new =>
      (old.user = 5 → old.revoked = false →
        new = { old with revoked := true, revoked_at := some 9,
                         revoked_reason := some "logout" }) ∧
      (old.user ≠ 5 → new = old) ∧
      (old.revoked = true → new = old))
      [rowRT, rowRT2] (tokenService.revokeAllUserRefreshTokens 5 9 [rowRT, rowRT2]) :=
  C5_revokeAllUserRefreshTokens_frame 5 9 [rowRT, rowRT2]

deriving instance DecidableEq for Except

theorem pickLatest_mem {l : List OtpRow} {m : OtpRow}
    (h : emailProvider.pickLatest l = some m) : m ∈ l := by
  induction l with
  | nil => simp [emailProvider.pickLatest] at h
  | cons r rs ih =>
    rw [emailProvider.pickLatest] at h
    cases hp : emailProvider.pickLatest rs with
    | none =>
      rw [hp] at h
      simp at h
      simp [h]
    | some mm =>
      rw [hp] at h
      by_cases hc : mm.createdAt > r.createdAt
      · simp [hc] at h
        exact List.mem_cons_of_mem r (ih (h ▸ hp))
      · simp [hc] at h
        simp [h]

theorem findLatestUnused_spec {email : String} {store : List OtpRow} {m : OtpRow}
    (h : emailProvider.findLatestUnused email store = some m) :
    m ∈ store ∧ m.email = email ∧ m.used = false := by
  have hmem := pickLatest_mem h
  rw [emailProvider.otpCandidates, List.mem_filter] at hmem
  obtain ⟨hs, hcond⟩ := hmem
  rw [Bool.and_eq_true, beq_iff_eq, Bool.not_eq_true'] at hcond
  exact ⟨hs, hcond.1, hcond.2⟩

theorem validate_some_cases (sha : String → String) (email otp : String)
    (now : Nat) (store : List OtpRow) (sel : OtpRow)
    (hf : emailProvider.findLatestUnused email store = some sel) :
    (now > sel.expires_at →
      emailProvider.validate sha email otp now store =
        (Except.error OtpError.expired, store)) ∧
    (¬ now > sel.expires_at → 3 ≤ sel.attempt_count →
      emailProvider.validate sha email otp now store =
        (Except.error OtpError.tooManyAttempts, store)) ∧
    (¬ now > sel.expires_at → sel.attempt_count < 3 → sel.code_hash ≠ sha otp →
      emailProvider.validate sha email otp now store =
        (Except.error (if 3 - (sel.attempt_count + 1) > 0
           then OtpError.invalidCode (3 - (sel.attempt_count + 1))
           else OtpError.tooManyAttempts),
         emailProvider.updateOtpRow sel.id
           (fun x => { x with attempt_count := sel.attempt_count + 1 }) store)) ∧
    (¬ now > sel.expires_at → sel.attempt_count < 3 → sel.code_hash = sha otp →
      emailProvider.validate sha email otp now store =
        (Except.ok { providerId := email, email := email, emailVerified := true },
         emailProvider.updateOtpRow sel.id
           (fun x => { x with used := true, used_at := some now }) store)) := by
  refine ⟨fun h1 => ?_, fun h1 h2 => ?_, fun h1 h2 h3 => ?_, fun h1 h2 h3 => ?_⟩
  · simp [emailProvider.validate, hf, h1]
  · simp [emailProvider.validate, hf, h1, h2]
  · simp [emailProvider.validate, hf, h1, Nat.not_le.mpr h2, h3]
  · simp [emailProvider.validate, hf, h1, Nat.not_le.mpr h2, h3]

theorem validate_ok_shape (sha : String → String) (email otp : String)
    (now : Nat) (store : List OtpRow) (info : ProviderUserInfo)
    (h : (emailProvider.validate sha email otp now store).1 = Except.ok info) :
    ∃ sel, emailProvider.findLatestUnused email store = some sel ∧
      ¬ now > sel.expires_at ∧ sel.attempt_count < 3 ∧ sel.code_hash = sha otp ∧
      (emailProvider.validate sha email otp now store).2 =
        emailProvider.updateOtpRow sel.id
          (fun x => { x with used := true, used_at := some now }) store := by
  cases hf : emailProvider.findLatestUnused email store with
  | none => simp [emailProvider.validate, hf] at h
  | some sel =>
    have hc := validate_some_cases sha email otp now store sel hf
    by_cases h1 : now > sel.expires_at
    · rw [hc.1 h1] at h; simp at h
    · by_cases h2 : 3 ≤ sel.attempt_count
      · rw [hc.2.1 h1 h2] at h; simp at h
      · have h2' : sel.attempt_count < 3 := Nat.not_le.mp h2
        by_cases h3 : sel.code_hash = sha otp
        · exact ⟨sel, rfl, h1, h2', h3, by rw [hc.2.2.2 h1 h2' h3]⟩
        · rw [hc.2.2.1 h1 h2' h3] at h; simp at h

/-- C1 (amended): once attempt_count has reached 3, every validate call that
selects that row fails without the submitted code being consulted — with the
expired error when the row is past expires_at, and with the too-many-attempts
error otherwise — and the store is left unchanged; in particular a 4th guess
fails even when the submitted code is correct. -/
theorem C1_exhausted_row_fails_before_compare (sha : String → String)
    (email otp : String) (now : Nat) (store : List OtpRow) (r : OtpRow)
    (hfind : emailProvider.findLatestUnused email store = some r)
    (hcount : 3 ≤ r.attempt_count) :
    (emailProvider.validate sha email otp now store).2 = store ∧
    (emailProvider.validate sha email otp now store).1 =
      Except.error (if now > r.expires_at then OtpError.expired
                    else OtpError.tooManyAttempts) := by
  have hc := validate_some_cases sha email otp now store r hfind
  by_cases hexp : now > r.expires_at
  · rw [hc.1 hexp]; simp [hexp]
  · rw [hc.2.1 hexp hcount]; simp [hexp]

def otpRowC1 : OtpRow :=
  { id := 1, email := "a@x.com", code_hash := shaT "123456",
    expires_at := 1000, attempt_count := 3, used := false, createdAt := 0 }

theorem C1_counterexample :
    3 ≤ otpRowC1.attempt_count ∧
    otpRowC1.code_hash = shaT "123456" ∧
    emailProvider.findLatestUnused "a@x.com" [otpRowC1] = some otpRowC1 ∧
    (emailProvider.validate shaT "a@x.com" "123456" 2000 [otpRowC1]).1 =
      Except.error OtpError.expired ∧
    (emailProvider.validate shaT "a@x.com" "123456" 2000 [otpRowC1]).1 ≠
      Except.error OtpError.tooManyAttempts := by
  decide

theorem C1_witness :
    (emailProvider.validate shaT "a@x.com" "123456" 500 [otpRowC1]).2 = [otpRowC1] ∧
    (emailProvider.validate shaT "a@x.com" "123456" 500 [otpRowC1]).1 =
      Except.error OtpError.tooManyAttempts := by
  have h := C1_exhausted_row_fails_before_compare shaT "a@x.com" "123456" 500
    [otpRowC1] otpRowC1 (by decide) (by decide)
  refine ⟨h.1, ?_⟩
  rw [h.2]
  decide

/-- C4: a row with used = true is never the row validate selects, a
successful validate selects a row with used = false and distinct from it, and
after the success every row carrying the selected id has used = true, so each
code verifies successfully at most once. -/
theorem C4_used_row_inert (sha : String → String) (email otp : String)
    (now : Nat) (store : List OtpRow) (r : OtpRow)
    (hr : r ∈ store) (hused : r.used = true) :
    emailProvider.findLatestUnused email store ≠ some r ∧
    (∀ info, (emailProvider.validate sha email otp now store).1 = Except.ok info →
      ∃ sel, emailProvider.findLatestUnused email store = some sel ∧
        sel.used = false ∧ sel ≠ r ∧
        (∀ x ∈ (emailProvider.validate sha email otp now store).2,
          x.id = sel.id → x.used = true)) := by
  constructor
  · intro hcontra
    have hspec := findLatestUnused_spec hcontra
    rw [hspec.2.2] at hused
    exact Bool.noConfusion hused
  · intro info hok
    obtain ⟨sel, hsel, hexp, hcnt, hhash, hstore⟩ :=
      validate_ok_shape sha email otp now store info hok
    have hspec := findLatestUnused_spec hsel
    refine ⟨sel, hsel, hspec.2.2, ?_, ?_⟩
    · intro he
      rw [he, hused] at hspec
      exact Bool.noConfusion hspec.2.2
    · intro x hx hxid
      rw [hstore] at hx
      obtain ⟨y, hy, hxy⟩ := List.mem_map.mp hx
      by_cases hyid : y.id = sel.id
      · rw [if_pos (by exact beq_iff_eq.mpr hyid)] at hxy
        rw [← hxy]
      · rw [if_neg (by simp [hyid])] at hxy
        rw [← hxy] at hxid
        exact absurd hxid hyid

def otpRowUsed : OtpRow :=
  { id := 9, email := "a@x.com", code_hash := shaT "123456",
    expires_at := 1000, attempt_count := 0, used := true, createdAt := 50 }

theorem C4_witness :
    emailProvider.findLatestUnused "a@x.com" [otpRowUsed, otpRowC1] ≠ some otpRowUsed :=
  (C4_used_row_inert shaT "a@x.com" "123456" 500 [otpRowUsed, otpRowC1] otpRowUsed
    (by decide) (by decide)).1

/-- C9 (amended): on a hash mismatch against an unexpired, unexhausted row
the incremented attempt_count is part of the store the call returns, and the
failure is the invalid-code error reporting 3 minus the new count when that
count is still below 3, and the too-many-attempts error when the increment
exhausts the budget. -/
theorem C9_mismatch_increments_before_failing (sha : String → String)
    (email otp : String) (now : Nat) (store : List OtpRow) (r : OtpRow)
    (hfind : emailProvider.findLatestUnused email store = some r)
    (hexp : now ≤ r.expires_at) (hcount : r.attempt_count < 3)
    (hmis : r.code_hash ≠ sha otp) :
    (emailProvider.validate sha email otp now store).2 =
      emailProvider.updateOtpRow r.id
        (fun x => { x with attempt_count := r.attempt_count + 1 }) store ∧
    { r with attempt_count := r.attempt_count + 1 } ∈
      (emailProvider.validate sha email otp now store).2 ∧
    (emailProvider.validate sha email otp now store).1 =
      Except.error (if r.attempt_count + 1 < 3
        then OtpError.invalidCode (3 - (r.attempt_count + 1))
        else OtpError.tooManyAttempts) := by
  have hc := validate_some_cases sha email otp now store r hfind
  have h1 : ¬ now > r.expires_at := Nat.not_lt.mpr hexp
  rw [hc.2.2.1 h1 hcount hmis]
  have hmem := (findLatestUnused_spec hfind).1
  refine ⟨rfl, ?_, ?_⟩
  · exact List.mem_map.mpr ⟨r, hmem, by simp⟩
  · show Except.error (if 3 - (r.attempt_count + 1) > 0
        then OtpError.invalidCode (3 - (r.attempt_count + 1))
        else OtpError.tooManyAttempts) = _
    congr 1
    by_cases hlt : r.attempt_count + 1 < 3
    · rw [if_pos (by omega), if_pos hlt]
    · rw [if_neg (by omega), if_neg hlt]

def otpRowC9 : OtpRow :=
  { id := 3, email := "b@x.com", code_hash := shaT "123456",
    expires_at := 1000, attempt_count := 2, used := false, createdAt := 0 }

theorem C9_counterexample :
    otpRowC9.attempt_count = 2 ∧
    otpRowC9.code_hash ≠ shaT "000000" ∧
    (emailProvider.validate shaT "b@x.com" "000000" 500 [otpRowC9]).1 ≠
      Except.error (OtpError.invalidCode (3 - (otpRowC9.attempt_count + 1))) ∧
    (emailProvider.validate shaT "b@x.com" "000000" 500 [otpRowC9]).1 =
      Except.error OtpError.tooManyAttempts ∧
    (emailProvider.validate shaT "b@x.com" "000000" 500 [otpRowC9]).2 =
      [{ otpRowC9 with attempt_count := 3 }] := by
  decide

theorem C9_witness :
    { otpRowC9 with attempt_count := 3 } ∈
      (emailProvider.validate shaT "b@x.com" "000000" 500 [otpRowC9]).2 :=
  (C9_mismatch_increments_before_failing shaT "b@x.com" "000000" 500 [otpRowC9]
    otpRowC9 (by decide) (by decide) (by decide) (by decide)).2.1

/-- C7 (amended): the Google adapter accepts exactly the tokens that pass the
issuer allow-list and the expiry check and whose aud equals the configured
client identifier whenever one is configured; with no client identifier
configured the audience check is skipped. Accepted tokens yield the
normalized subject / email / name / picture / email-verified data. -/
theorem C7_google_validate_checks (claims : GoogleClaims) (clientId : String)
    (nowMs : Nat) :
    ((∃ info, googleProvider.validate claims clientId nowMs = Except.ok info) ↔
      ((clientId = "" ∨ claims.aud = clientId) ∧
       (claims.iss = "accounts.google.com" ∨
        claims.iss = "https://accounts.google.com") ∧
       nowMs ≤ claims.exp * 1000)) ∧
    (∀ info, googleProvider.validate claims clientId nowMs = Except.ok info →
      info = { providerId := claims.sub, email := claims.email,
               name := claims.name, picture := claims.picture,
               emailVerified := claims.email_verified }) := by
  unfold googleProvider.validate
  by_cases h1 : clientId ≠ "" ∧ claims.aud ≠ clientId
  · rw [if_pos h1]
    constructor
    · constructor
      · rintro ⟨info, hinfo⟩
        exact absurd hinfo (by simp)
      · rintro ⟨hor, -, -⟩
        rcases hor with h | h
        · exact absurd h h1.1
        · exact absurd h h1.2
    · intro info hinfo
      exact absurd hinfo (by simp)
  · rw [if_neg h1]
    by_cases h2 : claims.iss = "accounts.google.com" ∨
        claims.iss = "https://accounts.google.com"
    · rw [if_neg (not_not.mpr h2)]
      by_cases h3 : nowMs > claims.exp * 1000
      · rw [if_pos h3]
        constructor
        · constructor
          · rintro ⟨info, hinfo⟩
            exact absurd hinfo (by simp)
          · rintro ⟨-, -, hexp⟩
            omega
        · intro info hinfo
          exact absurd hinfo (by simp)
      · rw [if_neg h3]
        push_neg at h1
        constructor
        · constructor
          · intro _
            refine ⟨?_, h2, Nat.not_lt.mp h3⟩
            by_cases hc : clientId = ""
            · exact Or.inl hc
            · exact Or.inr (h1 hc)
          · intro _
            exact ⟨_, rfl⟩
        · intro info hinfo
          exact (Except.ok.inj hinfo).symm
    · rw [if_pos h2]
      constructor
      · constructor
        · rintro ⟨info, hinfo⟩
          exact absurd hinfo (by simp)
        · rintro ⟨-, hiss, -⟩
          exact absurd hiss h2
      · intro info hinfo
        exact absurd hinfo (by simp)

def claimsBad : GoogleClaims :=
  { aud := "attacker-client", iss := "accounts.google.com", exp := 100,
    sub := "sub1", email := "e@x.com" }

theorem C7_counterexample :
    claimsBad.aud ≠ "" ∧
    googleProvider.validate claimsBad "" 50 =
      Except.ok { providerId := "sub1", email := "e@x.com",
                  emailVerified := false } := by
  decide

def claimsGood : GoogleClaims :=
  { aud := "my-client", iss := "https://accounts.google.com", exp := 100,
    sub := "sub1", email := "e@x.com", email_verified := true }

theorem C7_witness :
    ∃ info, googleProvider.validate claimsGood "my-client" 50 = Except.ok info :=
  (C7_google_validate_checks claimsGood "my-client" 50).1.mpr (by decide)

theorem find?_append_none {α : Type} (p : α → Bool) {l1 : List α} (l2 : List α)
    (h : l1.find? p = none) : (l1 ++ l2).find? p = l2.find? p := by
  induction l1 with
  | nil => rfl
  | cons x xs ih =>
    rw [List.find?_cons] at h
    cases hx : p x with
    | true => rw [hx] at h; simp at h
    | false =>
      rw [hx] at h
      rw [List.cons_append, List.find?_cons, hx]
      exact ih h

theorem foc_create (o : FindOrCreateUserOptions) (nid : Nat) (rid : Option Nat)
    (s : List UserRow)
    (hp : ∀ u ∈ s, ¬(u.auth_provider = o.authProvider ∧ u.provider_id = o.providerId))
    (he : ∀ u ∈ s, u.email ≠ o.email) :
    (identityResolver.findOrCreateUser o nid rid s).1.id = nid ∧
    (identityResolver.findOrCreateUser o nid rid s).1.email = o.email ∧
    (identityResolver.findOrCreateUser o nid rid s).2 =
      s ++ [(identityResolver.findOrCreateUser o nid rid s).1] := by
  have h1 : s.find?
      (fun u => u.auth_provider == o.authProvider && u.provider_id == o.providerId) = none := by
    rw [List.find?_eq_none]
    intro x hx
    simp only [Bool.and_eq_true, beq_iff_eq, not_and]
    intro hap hpid
    exact hp x hx ⟨hap, hpid⟩
  have h2 : s.find? (fun u => u.email == o.email) = none := by
    rw [List.find?_eq_none]
    intro x hx
    simp only [beq_iff_eq]
    exact he x hx
  refine ⟨?_, ?_, ?_⟩ <;> simp [identityResolver.findOrCreateUser, h1, h2]

theorem foc_update (o : FindOrCreateUserOptions) (nid : Nat) (rid : Option Nat)
    (s : List UserRow) (u : UserRow)
    (hbp : s.find?
      (fun v => v.auth_provider == o.authProvider && v.provider_id == o.providerId) = none)
    (hbe : s.find? (fun v => v.email == o.email) = some u) :
    (identityResolver.findOrCreateUser o nid rid s).1 =
      identityResolver.applyProviderUpdate o u := by
  simp [identityResolver.findOrCreateUser, hbp, hbe]

theorem foc_nogrow (o : FindOrCreateUserOptions) (nid : Nat) (rid : Option Nat)
    (s : List UserRow)
    (hex : ∃ u ∈ s, (u.auth_provider = o.authProvider ∧ u.provider_id = o.providerId) ∨
      u.email = o.email) :
    (identityResolver.findOrCreateUser o nid rid s).2.length = s.length := by
  obtain ⟨u, hu, hcase⟩ := hex
  unfold identityResolver.findOrCreateUser
  cases hbp : s.find?
      (fun u => u.auth_provider == o.authProvider && u.provider_id == o.providerId) with
  | some v => simp [hbp]
  | none =>
    cases hbe : s.find? (fun u => u.email == o.email) with
    | some v => simp [hbp, hbe]
    | none =>
      exfalso
      rcases hcase with hmatch | hem
      · have := List.find?_eq_none.mp hbp u hu
        simp [hmatch.1, hmatch.2] at this
      · have := List.find?_eq_none.mp hbe u hu
        simp [hem] at this

/-- C6: with a fresh store, a first login creates one user; a second login
for the same email under a different provider identity resolves to that same
user row and creates nothing further. In general the resolver looks up by
(auth_provider, provider_id), falls back to a lookup by email, never grows
the store when either lookup hits, and creates the user exactly when both
lookups miss. -/
theorem C6_same_email_converges (store0 : List UserRow)
    (o1 o2 : FindOrCreateUserOptions) (id1 id2 : Nat) (role1 role2 : Option Nat)
    (hemail : o2.email = o1.email)
    (hp1 : ∀ u ∈ store0, ¬(u.auth_provider = o1.authProvider ∧ u.provider_id = o1.providerId))
    (he0 : ∀ u ∈ store0, u.email ≠ o1.email)
    (hp2 : ∀ u ∈ (identityResolver.findOrCreateUser o1 id1 role1 store0).2,
      ¬(u.auth_provider = o2.authProvider ∧ u.provider_id = o2.providerId)) :
    (identityResolver.findOrCreateUser o1 id1 role1 store0).1.id = id1 ∧
    (identityResolver.findOrCreateUser o1 id1 role1 store0).2.length =
      store0.length + 1 ∧
    (identityResolver.findOrCreateUser o2 id2 role2
      (identityResolver.findOrCreateUser o1 id1 role1 store0).2).1.id = id1 ∧
    (identityResolver.findOrCreateUser o2 id2 role2
      (identityResolver.findOrCreateUser o1 id1 role1 store0).2).2.length =
      store0.length + 1 ∧
    (∀ o nid rid (s : List UserRow),
      (∃ u ∈ s, (u.auth_provider = o.authProvider ∧ u.provider_id = o.providerId) ∨
        u.email = o.email) →
      (identityResolver.findOrCreateUser o nid rid s).2.length = s.length) ∧
    (∀ o nid rid (s : List UserRow),
      (∀ u ∈ s, ¬(u.auth_provider = o.authProvider ∧ u.provider_id = o.providerId)) →
      (∀ u ∈ s, u.email ≠ o.email) →
      (identityResolver.findOrCreateUser o nid rid s).1.id = nid ∧
      (identityResolver.findOrCreateUser o nid rid s).2 =
        s ++ [(identityResolver.findOrCreateUser o nid rid s).1]) := by
  obtain ⟨hid1, hem1, hstore1⟩ := foc_create o1 id1 role1 store0 hp1 he0
  have hlen1 : (identityResolver.findOrCreateUser o1 id1 role1 store0).2.length =
      store0.length + 1 := by
    rw [hstore1]; simp
  have hbp2 : (identityResolver.findOrCreateUser o1 id1 role1 store0).2.find?
      (fun u => u.auth_provider == o2.authProvider && u.provider_id == o2.providerId) = none := by
    rw [List.find?_eq_none]
    intro x hx
    simp only [Bool.and_eq_true, beq_iff_eq, not_and]
    intro hap hpid
    exact hp2 x hx ⟨hap, hpid⟩
  have hbe2 : (identityResolver.findOrCreateUser o1 id1 role1 store0).2.find?
      (fun u => u.email == o2.email) =
      some (identityResolver.findOrCreateUser o1 id1 role1 store0).1 := by
    rw [hstore1]
    rw [find?_append_none]
    · simp [List.find?_cons, hem1, hemail]
    · rw [List.find?_eq_none]
      intro x hx
      simp only [beq_iff_eq, hemail]
      exact he0 x hx
  have hupd : (identityResolver.findOrCreateUser o2 id2 role2
      (identityResolver.findOrCreateUser o1 id1 role1 store0).2).1 =
      identityResolver.applyProviderUpdate o2
        (identityResolver.findOrCreateUser o1 id1 role1 store0).1 :=
    foc_update o2 id2 role2 _ _ hbp2 hbe2
  refine ⟨hid1, hlen1, ?_, ?_, fun o nid rid s hex => foc_nogrow o nid rid s hex,
    fun o nid rid s hp he =>
      ⟨(foc_create o nid rid s hp he).1, (foc_create o nid rid s hp he).2.2⟩⟩
  · rw [hupd]
    simp [identityResolver.applyProviderUpdate, hid1]
  · have := foc_nogrow o2 id2 role2
      (identityResolver.findOrCreateUser o1 id1 role1 store0).2
      ⟨(identityResolver.findOrCreateUser o1 id1 role1 store0).1,
        by rw [hstore1]; simp, Or.inr (by rw [hem1, hemail])⟩
    rw [this, hlen1]

def o1W : FindOrCreateUserOptions :=
  { email := "a@x.com", authProvider := "email", providerId := "a@x.com" }

def o2W : FindOrCreateUserOptions :=
  { email := "a@x.com", authProvider := "google", providerId := "gsub" }

theorem C6_witness :
    (identityResolver.findOrCreateUser o2W 2 none
      (identityResolver.findOrCreateUser o1W 1 none []).2).1.id = 1 ∧
    (identityResolver.findOrCreateUser o2W 2 none
      (identityResolver.findOrCreateUser o1W 1 none []).2).2.length = 1 := by
  have h := C6_same_email_converges [] o1W o2W 1 2 none none rfl
    (by simp) (by simp) (by decide)
  exact ⟨h.2.2.1, by simpa using h.2.2.2.1⟩

/-- A plaintext is dead in a store when every row carrying its hash is
revoked; validateRefreshToken then fails for it at every instant. -/
def tokenDead (sha : String → String) (raw : String)
    (store : List RefreshRow) : Prop :=
  ∀ r ∈ store, r.token_hash = sha raw → r.revoked = true

theorem validate_none_of_dead {sha : String → String} {raw : String}
    {store : List RefreshRow} (h : tokenDead sha raw store) (t : Nat) :
    (tokenService.validateRefreshToken sha raw t store).1 = none := by
  unfold tokenService.validateRefreshToken
  cases hf : store.find? (fun r => r.token_hash == sha raw) with
  | none => simp [hf]
  | some r =>
    have hp := List.find?_some hf
    have hmem : r ∈ store := List.mem_of_find?_eq_some hf
    have hrev : r.revoked = true := h r hmem (beq_iff_eq.mp hp)
    simp [hf, hrev]

theorem validate_none_of_absent {sha : String → String} {raw : String}
    {store : List RefreshRow} (h : ∀ r ∈ store, r.token_hash ≠ sha raw)
    (t : Nat) : (tokenService.validateRefreshToken sha raw t store).1 = none := by
  have hf : store.find? (fun r => r.token_hash == sha raw) = none := by
    rw [List.find?_eq_none]
    intro x hx
    simp only [beq_iff_eq]
    exact h x hx
  simp [tokenService.validateRefreshToken, hf]

theorem revoke_makes_dead (sha : String → String) (raw reason : String)
    (now : Nat) (store : List RefreshRow) :
    tokenDead sha raw (tokenService.revokeRefreshToken sha raw reason now store) := by
  intro x hx hhash
  unfold tokenService.revokeRefreshToken at hx
  obtain ⟨y, hy, hxy⟩ := List.mem_map.mp hx
  by_cases hc : (y.token_hash == sha raw) = true
  · rw [if_pos hc] at hxy
    rw [← hxy]
  · rw [if_neg hc] at hxy
    rw [← hxy] at hhash
    exact absurd (beq_iff_eq.mpr hhash) hc

theorem revoke_preserves_hashes {sha : String → String} {raw reason : String}
    {now : Nat} {store : List RefreshRow} {x : RefreshRow}
    (hx : x ∈ tokenService.revokeRefreshToken sha raw reason now store) :
    ∃ y ∈ store, x.token_hash = y.token_hash := by
  unfold tokenService.revokeRefreshToken at hx
  obtain ⟨y, hy, hxy⟩ := List.mem_map.mp hx
  refine ⟨y, hy, ?_⟩
  by_cases hc : (y.token_hash == sha raw) = true
  · rw [if_pos hc] at hxy
    rw [← hxy]
  · rw [if_neg hc] at hxy
    rw [← hxy]

theorem dead_preserved_revoke {sha : String → String} {raw : String}
    (raw2 reason : String) (t : Nat) {s : List RefreshRow}
    (h : tokenDead sha raw s) :
    tokenDead sha raw (tokenService.revokeRefreshToken sha raw2 reason t s) := by
  intro x hx hhash
  unfold tokenService.revokeRefreshToken at hx
  obtain ⟨y, hy, hxy⟩ := List.mem_map.mp hx
  by_cases hc : (y.token_hash == sha raw2) = true
  · rw [if_pos hc] at hxy
    rw [← hxy]
  · rw [if_neg hc] at hxy
    rw [← hxy] at hhash ⊢
    exact h y hy hhash

theorem dead_preserved_revokeAll {sha : String → String} {raw : String}
    (uid t : Nat) {s : List RefreshRow} (h : tokenDead sha raw s) :
    tokenDead sha raw (tokenService.revokeAllUserRefreshTokens uid t s) := by
  intro x hx hhash
  unfold tokenService.revokeAllUserRefreshTokens at hx
  obtain ⟨y, hy, hxy⟩ := List.mem_map.mp hx
  by_cases hc : (y.user == uid && !y.revoked) = true
  · rw [if_pos hc] at hxy
    rw [← hxy]
  · rw [if_neg hc] at hxy
    rw [← hxy] at hhash ⊢
    exact h y hy hhash

theorem dead_preserved_refresh {sha : String → String} {raw : String}
    (raw2 : String) (t : Nat) {s : List RefreshRow} (h : tokenDead sha raw s) :
    tokenDead sha raw (tokenService.refreshLastUsedUpdate sha raw2 t s).2 := by
  unfold tokenService.refreshLastUsedUpdate
  cases hv : (tokenService.validateRefreshToken sha raw2 t s).1 with
  | none => simpa [hv] using h
  | some record =>
    simp only [hv]
    intro x hx hhash
    obtain ⟨y, hy, hxy⟩ := List.mem_map.mp hx
    by_cases hc : (y.id == record.id) = true
    · rw [if_pos hc] at hxy
      rw [← hxy] at hhash ⊢
      exact h y hy hhash
    · rw [if_neg hc] at hxy
      rw [← hxy] at hhash ⊢
      exact h y hy hhash

theorem validate_append_fresh (sha : String → String) (raw : String) (t : Nat)
    (l : List RefreshRow) (row : RefreshRow)
    (hl : ∀ r ∈ l, r.token_hash ≠ sha raw) (hrow : row.token_hash = sha raw)
    (hrev : row.revoked = false) (ht : ¬ t > row.expires_at) :
    (tokenService.validateRefreshToken sha raw t (l ++ [row])).1 = some row := by
  have hf : (l ++ [row]).find? (fun r => r.token_hash == sha raw) = some row := by
    rw [find?_append_none _ _ (by
      rw [List.find?_eq_none]
      intro x hx
      simp only [beq_iff_eq]
      exact hl x hx)]
    simp [List.find?_cons, hrow]
  simp [tokenService.validateRefreshToken, hf, hrev, ht]

theorem dead_preserved_generate {sha : String → String} {raw : String}
    (bytes2 : Fin 16 → Fin 256) (envD2 : Option Nat) (t nid2 uid2 : Nat)
    (opts2 : RefreshTokenOptions) {s : List RefreshRow}
    (hne : sha (uuid.uuidv4 bytes2) ≠ sha raw) (h : tokenDead sha raw s) :
    tokenDead sha raw
      (tokenService.generateRefreshToken sha bytes2 envD2 t nid2 uid2 opts2 s).2 := by
  intro x hx hhash
  unfold tokenService.generateRefreshToken at hx
  rcases List.mem_append.mp hx with hmem | hmem
  · exact h x hmem hhash
  · simp at hmem
    rw [hmem] at hhash
    exact absurd hhash hne

/-- C2: rotating revokes every row carrying the old plaintext's hash before
the replacement row is appended: the old plaintext fails validation at every
instant in the intermediate store and in the final store, the fresh plaintext
validates in the final store throughout its window and in no earlier store,
and deadness of the old plaintext is preserved by every subsequent store
operation, so no reachable state ever has both plaintexts valid. -/
theorem C2_rotate_old_dead_new_valid (sha : String → String)
    (hinj : Function.Injective sha) (oldRaw : String)
    (randomBytes : Fin 16 → Fin 256) (envDays : Option Nat) (now : Nat)
    (newId uid : Nat) (options : RefreshTokenOptions) (store : List RefreshRow)
    (hne : uuid.uuidv4 randomBytes ≠ oldRaw)
    (hfresh : ∀ r ∈ store, r.token_hash ≠ sha (uuid.uuidv4 randomBytes)) :
    (tokenService.rotateRefreshToken sha oldRaw randomBytes envDays now newId uid
        options store).1 = uuid.uuidv4 randomBytes ∧
    tokenDead sha oldRaw
      (tokenService.revokeRefreshToken sha oldRaw "rotated" now store) ∧
    tokenDead sha oldRaw
      (tokenService.rotateRefreshToken sha oldRaw randomBytes envDays now newId uid
        options store).2 ∧
    (∀ t, (tokenService.validateRefreshToken sha oldRaw t
      (tokenService.rotateRefreshToken sha oldRaw randomBytes envDays now newId uid
        options store).2).1 = none) ∧
    (∀ t, t ≤ now + tokenService.expiryDays envDays * 86400000 →
      (tokenService.validateRefreshToken sha (uuid.uuidv4 randomBytes) t
        (tokenService.rotateRefreshToken sha oldRaw randomBytes envDays now newId uid
          options store).2).1 =
      some { id := newId, token_hash := sha (uuid.uuidv4 randomBytes), user := uid,
             device_type := options.deviceType, device_info := options.deviceInfo,
             ip_address := options.ipAddress,
             expires_at := now + tokenService.expiryDays envDays * 86400000,
             last_used_at := now, revoked := false }) ∧
    (∀ t, (tokenService.validateRefreshToken sha (uuid.uuidv4 randomBytes) t
      store).1 = none) ∧
    (∀ t, (tokenService.validateRefreshToken sha (uuid.uuidv4 randomBytes) t
      (tokenService.revokeRefreshToken sha oldRaw "rotated" now store)).1 = none) ∧
    (∀ t, (tokenService.validateRefreshToken sha oldRaw t
      (tokenService.revokeRefreshToken sha oldRaw "rotated" now store)).1 = none) ∧
    (∀ raw2 reason t s, tokenDead sha oldRaw s →
      tokenDead sha oldRaw (tokenService.revokeRefreshToken sha raw2 reason t s)) ∧
    (∀ uid2 t s, tokenDead sha oldRaw s →
      tokenDead sha oldRaw (tokenService.revokeAllUserRefreshTokens uid2 t s)) ∧
    (∀ raw2 t s, tokenDead sha oldRaw s →
      tokenDead sha oldRaw (tokenService.refreshLastUsedUpdate sha raw2 t s).2) ∧
    (∀ bytes2 envD2 t nid2 uid2 opts2 s, uuid.uuidv4 bytes2 ≠ oldRaw →
      tokenDead sha oldRaw s →
      tokenDead sha oldRaw
        (tokenService.generateRefreshToken sha bytes2 envD2 t nid2 uid2 opts2 s).2) := by
  have hdead1 : tokenDead sha oldRaw
      (tokenService.revokeRefreshToken sha oldRaw "rotated" now store) :=
    revoke_makes_dead sha oldRaw "rotated" now store
  have hhashne : sha (uuid.uuidv4 randomBytes) ≠ sha oldRaw :=
    fun hcontra => hne (hinj hcontra)
  have hdead2 : tokenDead sha oldRaw
      (tokenService.rotateRefreshToken sha oldRaw randomBytes envDays now newId uid
        options store).2 :=
    dead_preserved_generate randomBytes envDays now newId uid options hhashne hdead1
  have hfresh1 : ∀ r ∈ tokenService.revokeRefreshToken sha oldRaw "rotated" now store,
      r.token_hash ≠ sha (uuid.uuidv4 randomBytes) := by
    intro x hx
    obtain ⟨y, hy, hxy⟩ := revoke_preserves_hashes hx
    rw [hxy]
    exact hfresh y hy
  have hstore2 : (tokenService.rotateRefreshToken sha oldRaw randomBytes envDays now
      newId uid options store).2 =
      tokenService.revokeRefreshToken sha oldRaw "rotated" now store ++
      [{ id := newId, token_hash := sha (uuid.uuidv4 randomBytes), user := uid,
         device_type := options.deviceType, device_info := options.deviceInfo,
         ip_address := options.ipAddress,
         expires_at := now + tokenService.expiryDays envDays * 86400000,
         last_used_at := now, revoked := false }] := rfl
  refine ⟨rfl, hdead1, hdead2, fun t => validate_none_of_dead hdead2 t, ?_,
    fun t => validate_none_of_absent hfresh t,
    fun t => validate_none_of_absent hfresh1 t,
    fun t => validate_none_of_dead hdead1 t,
    fun raw2 reason t s h => dead_preserved_revoke raw2 reason t h,
    fun uid2 t s h => dead_preserved_revokeAll uid2 t h,
    fun raw2 t s h => dead_preserved_refresh raw2 t h,
    fun bytes2 envD2 t nid2 uid2 opts2 s hne2 h =>
      dead_preserved_generate bytes2 envD2 t nid2 uid2 opts2
        (fun hcontra => hne2 (hinj hcontra)) h⟩
  intro t ht
  rw [hstore2]
  exact validate_append_fresh sha (uuid.uuidv4 randomBytes) t _ _ hfresh1 rfl rfl
    (Nat.not_lt.mpr ht)

def rowOld : RefreshRow :=
  { id := 1, token_hash := "old", user := 5, expires_at := 999999999999999,
    last_used_at := 0, revoked := false }

theorem C2_witness :
    (tokenService.validateRefreshToken id "old" 777
      (tokenService.rotateRefreshToken id "old" (fun _ => 0) none 10 2 5 {}
        [rowOld]).2).1 = none ∧
    (tokenService.validateRefreshToken id (uuid.uuidv4 (fun _ => 0)) 10
      (tokenService.rotateRefreshToken id "old" (fun _ => 0) none 10 2 5 {}
        [rowOld]).2).1 =
      some { id := 2, token_hash := id (uuid.uuidv4 (fun _ => 0)), user := 5,
             device_type := none, device_info := none, ip_address := none,
             expires_at := 10 + tokenService.expiryDays none * 86400000,
             last_used_at := 10, revoked := false } := by
  have h := C2_rotate_old_dead_new_valid id Function.injective_id "old"
    (fun _ => 0) none 10 2 5 {} [rowOld] (by decide) (by decide)
  exact ⟨h.2.2.2.1 777, h.2.2.2.2.1 10 (Nat.le_add_right 10 _)⟩

/-- All byte vectors the uuidv4 masking can produce. -/
def uuidCore : Finset (Fin 16 → Fin 256) :=
  Finset.image uuid.uuidv4Bytes Finset.univ

/-- All token strings generateRefreshToken can mint. -/
def uuidTokenSpace : Finset String :=
  Finset.image uuid.uuidv4 Finset.univ

theorem mask6_idem : ∀ x : Fin 256, uuid.mask6 (uuid.mask6 x) = uuid.mask6 x := by
  decide

theorem mask8_idem : ∀ x : Fin 256, uuid.mask8 (uuid.mask8 x) = uuid.mask8 x := by
  decide

theorem uuidv4Bytes_fixed_iff (v : Fin 16 → Fin 256) :
    uuid.uuidv4Bytes v = v ↔
      uuid.mask6 (v 6) = v 6 ∧ uuid.mask8 (v 8) = v 8 := by
  constructor
  · intro h
    constructor
    · have h6 := congrFun h 6
      simpa [uuid.uuidv4Bytes] using h6
    · have h8 := congrFun h 8
      simpa [uuid.uuidv4Bytes] using h8
  · rintro ⟨h6, h8⟩
    funext i
    unfold uuid.uuidv4Bytes
    by_cases hi6 : i = 6
    · subst hi6
      rw [if_pos rfl]
      exact h6
    · by_cases hi8 : i = 8
      · subst hi8
        rw [if_neg (by decide), if_pos rfl]
        exact h8
      · rw [if_neg hi6, if_neg hi8]

/-- The two constrained byte positions of a v4 UUID; every other byte ranges
over all 256 values. -/
def byteSet (i : Fin 16) : Finset (Fin 256) :=
  if i = 6 then Finset.univ.filter (fun x => uuid.mask6 x = x)
  else if i = 8 then Finset.univ.filter (fun x => uuid.mask8 x = x)
  else Finset.univ

theorem uuidCore_eq_piFinset : uuidCore = Fintype.piFinset byteSet := by
  ext v
  simp only [uuidCore, Finset.mem_image, Fintype.mem_piFinset]
  constructor
  · rintro ⟨u, -, rfl⟩
    intro i
    unfold byteSet
    by_cases hi6 : i = 6
    · subst hi6
      rw [if_pos rfl, Finset.mem_filter]
      exact ⟨Finset.mem_univ _, mask6_idem (u 6)⟩
    · by_cases hi8 : i = 8
      · subst hi8
        rw [if_neg (by decide), if_pos rfl, Finset.mem_filter]
        exact ⟨Finset.mem_univ _, mask8_idem (u 8)⟩
      · rw [if_neg hi6, if_neg hi8]
        exact Finset.mem_univ _
  · intro hv
    refine ⟨v, Finset.mem_univ v, ?_⟩
    apply (uuidv4Bytes_fixed_iff v).mpr
    constructor
    · have h6 := hv 6
      unfold byteSet at h6
      rw [if_pos rfl, Finset.mem_filter] at h6
      exact h6.2
    · have h8 := hv 8
      unfold byteSet at h8
      rw [if_neg (by decide), if_pos rfl, Finset.mem_filter] at h8
      exact h8.2

theorem uuidCore_card : uuidCore.card = 2 ^ 122 := by
  rw [uuidCore_eq_piFinset, Fintype.card_piFinset]
  have hb : ∀ i : Fin 16, (byteSet i).card =
      (if i = 6 then 16 else if i = 8 then 64 else 256) := by
    intro i
    unfold byteSet
    by_cases hi6 : i = 6
    · subst hi6
      rw [if_pos rfl, if_pos rfl]
      decide
    · by_cases hi8 : i = 8
      · subst hi8
        rw [if_neg (by decide), if_pos rfl, if_neg (by decide), if_pos rfl]
        decide
      · rw [if_neg hi6, if_neg hi8, if_neg hi6, if_neg hi8]
        simp
  rw [Finset.prod_congr rfl (fun i _ => hb i)]
  decide

theorem uuidTokenSpace_card_le : uuidTokenSpace.card ≤ 2 ^ 122 := by
  have himg : uuidTokenSpace = Finset.image uuid.uuidStringify uuidCore := by
    unfold uuidTokenSpace uuidCore
    rw [Finset.image_image]
    rfl
  calc uuidTokenSpace.card
      = (Finset.image uuid.uuidStringify uuidCore).card := by rw [himg]
    _ ≤ uuidCore.card := Finset.card_image_le
    _ = 2 ^ 122 := uuidCore_card

theorem C8_counterexample :
    uuidTokenSpace.card < 2 ^ 128 ∧
    (tokenService.generateRefreshToken shaT (fun _ => 0) (some 30) 10 1 5 {}
      []).2 =
      [{ id := 1, token_hash := shaT (uuid.uuidv4 (fun _ => 0)), user := 5,
         device_type := none, device_info := none, ip_address := none,
         expires_at := 10 + 30 * 86400000, last_used_at := 10,
         revoked := false }] ∧
    (10 : Nat) + 30 * 86400000 ≠ 10 + 7 * 86400000 :=
  ⟨lt_of_le_of_lt uuidTokenSpace_card_le (by norm_num), rfl, by decide⟩

/-- C8 (amended): generateRefreshToken mints a token drawn from a space of at
most 2 ^ 122 strings (the version-4 UUID core admits exactly 2 ^ 122 byte
patterns: 122 random bits, fewer than 2 ^ 128), persists a single new row
holding the token's hash together with the context, last_used_at equal to the
issuance instant, expires_at = issuance + the configured number of expiry
days (7 exactly when the environment variable is unset), revoked = false, and
returns the plaintext, which appears in no stored row. -/
theorem C8_generateRefreshToken_spec (sha : String → String)
    (randomBytes : Fin 16 → Fin 256) (envDays : Option Nat)
    (now newId uid : Nat) (options : RefreshTokenOptions)
    (store : List RefreshRow)
    (hsha : sha (uuid.uuidv4 randomBytes) ≠ uuid.uuidv4 randomBytes)
    (hplain : ∀ r ∈ store, r.token_hash ≠ uuid.uuidv4 randomBytes) :
    (tokenService.generateRefreshToken sha randomBytes envDays now newId uid
      options store).1 = uuid.uuidv4 randomBytes ∧
    (tokenService.generateRefreshToken sha randomBytes envDays now newId uid
      options store).2 =
      store ++ [{ id := newId, token_hash := sha (uuid.uuidv4 randomBytes),
                  user := uid, device_type := options.deviceType,
                  device_info := options.deviceInfo,
                  ip_address := options.ipAddress,
                  expires_at := now + tokenService.expiryDays envDays * 86400000,
                  last_used_at := now, revoked := false }] ∧
    tokenService.expiryDays none = 7 ∧
    (∀ r ∈ (tokenService.generateRefreshToken sha randomBytes envDays now newId
      uid options store).2, r.token_hash ≠ uuid.uuidv4 randomBytes) ∧
    uuid.uuidv4 randomBytes ∈ uuidTokenSpace ∧
    uuidCore.card = 2 ^ 122 ∧
    uuidTokenSpace.card ≤ 2 ^ 122 := by
  refine ⟨rfl, rfl, rfl, ?_, ?_, uuidCore_card, uuidTokenSpace_card_le⟩
  · intro r hr
    rcases List.mem_append.mp hr with hm | hm
    · exact hplain r hm
    · simp at hm
      rw [hm]
      exact hsha
  · exact Finset.mem_image.mpr ⟨randomBytes, Finset.mem_univ _, rfl⟩

theorem C8_witness :
    (tokenService.generateRefreshToken shaT (fun _ => 0) none 10 1 5 {} []).1 =
      uuid.uuidv4 (fun _ => 0) ∧
    (tokenService.generateRefreshToken shaT (fun _ => 0) none 10 1 5 {} []).2 =
      [{ id := 1, token_hash := shaT (uuid.uuidv4 (fun _ => 0)), user := 5,
         device_type := none, device_info := none, ip_address := none,
         expires_at := 10 + 7 * 86400000, last_used_at := 10,
         revoked := false }] := by
  have h := C8_generateRefreshToken_spec shaT (fun _ => 0) none 10 1 5 {} []
    (by decide) (by simp)
  exact ⟨h.1, by simpa [tokenService.expiryDays] using h.2.1⟩

end BlogAuth
